import Mathlib

/-!
# Verification of the particle dispersion engine (Project Smog)

Shallow embedding of the deterministic, fixed-timestep particle dispersion
engine: the fixed-timestep clock (`TimeManager` in the timing module), the
stochastic emission generator (`polluters.js`), the synthetic wind velocity
field (`traffic.js` / `getVelocityAt`), the particle pool with global
capacity eviction, the physics integrator and the spatial binner
(`orchestrator.js`), and the emitter registry (`registry.js`).

JavaScript numbers are modelled as real numbers (`ℝ`).  Where the question
under study is precisely whether a floating-point computation can produce a
non-finite value (NaN / Infinity), the computation is re-run over the carrier
`Option ℝ` in which `none` stands for a non-finite double and every
arithmetic operation propagates `none`; division by zero produces `none`
(in JavaScript, `x / 0` is `±Infinity` and `0 / 0` is `NaN`, and each of the
operations used downstream of the divisions in this code — addition,
subtraction, multiplication — maps a non-finite operand to a non-finite
result).  Float overflow of otherwise total operations is not modelled.
-/

namespace Smog

noncomputable section

open Real

/-! ## JavaScript numeric primitives -/

/-- JavaScript `Math.trunc`-style rounding toward zero, as used by the `%`
remainder operator (`a % b` has the sign of the dividend `a`). -/
def jsTrunc (x : ℝ) : ℤ :=
  if 0 ≤ x then ⌊x⌋ else -⌊-x⌋

/-- JavaScript remainder `a % b` for a finite dividend and a nonzero finite
divisor: `a - b * trunc (a / b)`. -/
def jsRem (a b : ℝ) : ℝ :=
  a - b * (jsTrunc (a / b) : ℝ)

@[simp] theorem jsTrunc_nonneg (x : ℝ) (hx : 0 ≤ x) : jsTrunc x = ⌊x⌋ := by
  simp [jsTrunc, hx]

/-! ## SimulationClock (`TimeManager` in the timing module)

State and `update` are translated from `TimeManager`: `fixedDeltaTime = 1/60`,
`maxSubSteps = 8`; `update(realDeltaTime)` returns the number of fixed steps
to run.  The drain `while (accumulator >= fixedDeltaTime)` loop is embedded
as a well-founded recursion on `⌊accumulator / fixedDeltaTime⌋₊`. -/

/-- `TimeManager.fixedDeltaTime` (1/60 s). -/
def fixedDeltaTime : ℝ := 1 / 60

/-- `TimeManager.maxSubSteps`. -/
def maxSubSteps : ℕ := 8

theorem fixedDeltaTime_pos : 0 < fixedDeltaTime := by norm_num [fixedDeltaTime]

/-- The mutable state of `TimeManager` relevant to stepping (the
performance-tracking fields `avgFrameTime`, `frameCount`, `stepsThisFrame`
do not feed back into the simulation and are omitted). -/
structure TMState where
  accumulator : ℝ
  simulationTime : ℝ
  timeScale : ℝ
  paused : Bool

/-- The drain loop of `TimeManager.update`:
`while (accumulator >= fixedDeltaTime) { accumulator -= fixedDeltaTime;
simulationTime += fixedDeltaTime; steps++ }`. -/
def drain (acc simTime : ℝ) (steps : ℕ) : ℝ × ℝ × ℕ :=
  if h : fixedDeltaTime ≤ acc then
    drain (acc - fixedDeltaTime) (simTime + fixedDeltaTime) (steps + 1)
  else
    (acc, simTime, steps)
  termination_by (⌊acc / fixedDeltaTime⌋₊ : ℕ)
  decreasing_by
    have hfd : (0:ℝ) < fixedDeltaTime := fixedDeltaTime_pos
    have h1 : (1:ℝ) ≤ acc / fixedDeltaTime := (one_le_div hfd).mpr h
    have hsub : (acc - fixedDeltaTime) / fixedDeltaTime = acc / fixedDeltaTime - 1 := by
      field_simp
    have hfl : ⌊(acc - fixedDeltaTime) / fixedDeltaTime⌋₊
        = ⌊acc / fixedDeltaTime⌋₊ - 1 := by
      rw [hsub]
      have h2 := Nat.floor_sub_nat (acc / fixedDeltaTime) 1
      simp only [Nat.cast_one] at h2
      exact h2
    have hpos : 1 ≤ ⌊acc / fixedDeltaTime⌋₊ := Nat.le_floor (by exact_mod_cast h1)
    omega

/-- `TimeManager.update(realDeltaTime)`: returns the updated state together
with the number of fixed simulation steps to run this frame. -/
def TMupdate (s : TMState) (realDeltaTime : ℝ) : TMState × ℕ :=
  if s.paused then (s, 0)
  else
    let scaledDelta := realDeltaTime * s.timeScale
    let acc1 := s.accumulator + scaledDelta
    let maxAccumulator := fixedDeltaTime * (maxSubSteps : ℝ)
    let acc2 := if acc1 > maxAccumulator then maxAccumulator else acc1
    let r := drain acc2 s.simulationTime 0
    (⟨r.1, r.2.1, s.timeScale, s.paused⟩, r.2.2)

/-- `TimeManager.init()` / `reset()`: zero accumulator and simulation time. -/
def TMinit : TMState := ⟨0, 0, 1, false⟩

/-- The clock invariant claimed by the spec: the accumulator stays in
`[0, fixedDeltaTime)` and the simulation time is an exact multiple of the
fixed timestep. -/
def TMInv (s : TMState) : Prop :=
  0 ≤ s.accumulator ∧ s.accumulator < fixedDeltaTime ∧
    ∃ n : ℕ, s.simulationTime = n * fixedDeltaTime

/-- Closed form of the drain loop. -/
theorem drain_eq (acc simTime : ℝ) (steps : ℕ) (hacc : 0 ≤ acc) :
    drain acc simTime steps =
      (acc - (⌊acc / fixedDeltaTime⌋₊ : ℝ) * fixedDeltaTime,
       simTime + (⌊acc / fixedDeltaTime⌋₊ : ℝ) * fixedDeltaTime,
       steps + ⌊acc / fixedDeltaTime⌋₊) := by
  have hfd : (0:ℝ) < fixedDeltaTime := fixedDeltaTime_pos
  generalize hn : ⌊acc / fixedDeltaTime⌋₊ = n
  induction n generalizing acc simTime steps with
  | zero =>
      have hlt : acc < fixedDeltaTime := by
        by_contra hge
        push_neg at hge
        have h1 : (1:ℝ) ≤ acc / fixedDeltaTime := (one_le_div hfd).mpr hge
        have : 1 ≤ ⌊acc / fixedDeltaTime⌋₊ := Nat.le_floor (by exact_mod_cast h1)
        omega
      rw [drain]
      simp [not_le.mpr hlt]
  | succ k ih =>
      have hge : fixedDeltaTime ≤ acc := by
        by_contra hlt
        push_neg at hlt
        have : ⌊acc / fixedDeltaTime⌋₊ = 0 := by
          have : acc / fixedDeltaTime < 1 := (div_lt_one hfd).mpr hlt
          exact Nat.floor_eq_zero.mpr this
        omega
      have hsub : (acc - fixedDeltaTime) / fixedDeltaTime = acc / fixedDeltaTime - 1 := by
        field_simp
      have hfl : ⌊(acc - fixedDeltaTime) / fixedDeltaTime⌋₊ = k := by
        rw [hsub]
        have h1 := Nat.floor_sub_nat (acc / fixedDeltaTime) 1
        simp only [Nat.cast_one] at h1
        omega
      have hacc2 : (0:ℝ) ≤ acc - fixedDeltaTime := by linarith
      rw [drain]
      simp only [hge, dif_pos]
      rw [ih (acc - fixedDeltaTime) (simTime + fixedDeltaTime) (steps + 1) hacc2 hfl]
      refine Prod.ext ?_ (Prod.ext ?_ ?_) <;> simp <;> push_cast <;> [ring; ring; omega]

theorem drain_acc_nonneg (acc st : ℝ) (h : 0 ≤ acc) : 0 ≤ (drain acc st 0).1 := by
  rw [drain_eq acc st 0 h]
  have hfd : (0:ℝ) < fixedDeltaTime := fixedDeltaTime_pos
  have h1 : (⌊acc / fixedDeltaTime⌋₊ : ℝ) ≤ acc / fixedDeltaTime :=
    Nat.floor_le (by positivity)
  have h2 : (⌊acc / fixedDeltaTime⌋₊ : ℝ) * fixedDeltaTime ≤ acc := by
    calc (⌊acc / fixedDeltaTime⌋₊ : ℝ) * fixedDeltaTime
        ≤ (acc / fixedDeltaTime) * fixedDeltaTime := by
          exact mul_le_mul_of_nonneg_right h1 (le_of_lt hfd)
      _ = acc := by field_simp
  simpa using h2

theorem drain_acc_lt (acc st : ℝ) (h : 0 ≤ acc) : (drain acc st 0).1 < fixedDeltaTime := by
  rw [drain_eq acc st 0 h]
  have hfd : (0:ℝ) < fixedDeltaTime := fixedDeltaTime_pos
  have h1 : acc / fixedDeltaTime < (⌊acc / fixedDeltaTime⌋₊ : ℝ) + 1 :=
    Nat.lt_floor_add_one _
  have h2 : acc < ((⌊acc / fixedDeltaTime⌋₊ : ℝ) + 1) * fixedDeltaTime := by
    have := mul_lt_mul_of_pos_right h1 hfd
    calc acc = (acc / fixedDeltaTime) * fixedDeltaTime := by field_simp
      _ < ((⌊acc / fixedDeltaTime⌋₊ : ℝ) + 1) * fixedDeltaTime := this
  simp only []
  nlinarith

theorem drain_steps_le (acc st : ℝ) (h : 0 ≤ acc) :
    ((drain acc st 0).2.2 : ℝ) * fixedDeltaTime ≤ acc := by
  rw [drain_eq acc st 0 h]
  have hfd : (0:ℝ) < fixedDeltaTime := fixedDeltaTime_pos
  have h1 : (⌊acc / fixedDeltaTime⌋₊ : ℝ) ≤ acc / fixedDeltaTime :=
    Nat.floor_le (by positivity)
  simp only [Nat.zero_add]
  calc (⌊acc / fixedDeltaTime⌋₊ : ℝ) * fixedDeltaTime
      ≤ (acc / fixedDeltaTime) * fixedDeltaTime :=
        mul_le_mul_of_nonneg_right h1 (le_of_lt hfd)
    _ = acc := by field_simp

theorem drain_simTime (acc st : ℝ) (h : 0 ≤ acc) :
    (drain acc st 0).2.1 = st + ((drain acc st 0).2.2 : ℝ) * fixedDeltaTime := by
  rw [drain_eq acc st 0 h]
  simp

/-- **C5.** For every state satisfying the clock invariant (which holds at
initialization), every nonnegative frame time `realDeltaTime` and every
`timeScale` in `[0.1, 10]`, after `TimeManager.update` returns: the
accumulator satisfies `0 ≤ accumulator < fixedDeltaTime`, `simulationTime`
is an exact multiple of `fixedDeltaTime`, and the number of steps returned
satisfies `steps * fixedDeltaTime ≤ realDeltaTime * timeScale +
fixedDeltaTime`; hence these hold after every call for every sequence of
frame times. -/
theorem clock_accumulator_invariant :
    TMInv TMinit ∧
      ∀ (s : TMState) (dt : ℝ), 0 ≤ dt → 0.1 ≤ s.timeScale → s.timeScale ≤ 10 →
        TMInv s →
        TMInv (TMupdate s dt).1 ∧
          ((TMupdate s dt).2 : ℝ) * fixedDeltaTime ≤ dt * s.timeScale + fixedDeltaTime := by
  constructor
  · exact ⟨le_refl 0, by norm_num [TMinit, fixedDeltaTime], 0, by norm_num [TMinit]⟩
  intro s dt hdt hts1 hts2 hInv
  obtain ⟨hacc0, haccF, n, hsim⟩ := hInv
  have hfd : (0:ℝ) < fixedDeltaTime := fixedDeltaTime_pos
  have hts0 : 0 ≤ s.timeScale := by linarith
  have hscaled : 0 ≤ dt * s.timeScale := mul_nonneg hdt hts0
  cases hps : s.paused with
  | true =>
      simp only [TMupdate, hps, if_true]
      refine ⟨⟨hacc0, haccF, n, hsim⟩, ?_⟩
      simp only [Nat.cast_zero, zero_mul]
      linarith
  | false =>
      simp only [TMupdate, hps, Bool.false_eq_true, if_false]
      set acc1 := s.accumulator + dt * s.timeScale with hacc1def
      have hacc1 : 0 ≤ acc1 := add_nonneg hacc0 hscaled
      set maxAcc := fixedDeltaTime * ((maxSubSteps : ℕ) : ℝ) with hmaxdef
      have hmax0 : 0 ≤ maxAcc := by
        have : (0:ℝ) ≤ ((maxSubSteps : ℕ) : ℝ) := by positivity
        exact mul_nonneg (le_of_lt hfd) this
      by_cases hcl : acc1 > maxAcc
      · simp only [hcl, if_true]
        refine ⟨⟨drain_acc_nonneg _ _ hmax0, drain_acc_lt _ _ hmax0, n + (drain maxAcc s.simulationTime 0).2.2, ?_⟩, ?_⟩
        · rw [drain_simTime _ _ hmax0, hsim]
          push_cast
          ring
        · have h1 := drain_steps_le maxAcc s.simulationTime hmax0
          have h2 : maxAcc ≤ acc1 := le_of_lt hcl
          have h3 : s.accumulator < fixedDeltaTime := haccF
          refine le_of_lt ?_
          calc ((drain maxAcc s.simulationTime 0).2.2 : ℝ) * fixedDeltaTime
              ≤ maxAcc := h1
            _ ≤ acc1 := h2
            _ < fixedDeltaTime + dt * s.timeScale := by rw [hacc1def]; linarith
            _ = dt * s.timeScale + fixedDeltaTime := by ring
      · simp only [hcl, if_false]
        refine ⟨⟨drain_acc_nonneg _ _ hacc1, drain_acc_lt _ _ hacc1, n + (drain acc1 s.simulationTime 0).2.2, ?_⟩, ?_⟩
        · rw [drain_simTime _ _ hacc1, hsim]
          push_cast
          ring
        · have h1 := drain_steps_le acc1 s.simulationTime hacc1
          have h3 : s.accumulator < fixedDeltaTime := haccF
          refine le_of_lt ?_
          calc ((drain acc1 s.simulationTime 0).2.2 : ℝ) * fixedDeltaTime
              ≤ acc1 := h1
            _ < fixedDeltaTime + dt * s.timeScale := by rw [hacc1def]; linarith
            _ = dt * s.timeScale + fixedDeltaTime := by ring

/-- Witness for C5: the invariant and the step bound at the initial state
with a concrete frame time. -/
theorem clock_accumulator_invariant_witness :
    TMInv (TMupdate TMinit (1/30)).1 ∧
      ((TMupdate TMinit (1/30)).2 : ℝ) * fixedDeltaTime ≤
        (1/30) * TMinit.timeScale + fixedDeltaTime :=
  clock_accumulator_invariant.2 TMinit (1/30) (by norm_num)
    (by norm_num [TMinit]) (by norm_num [TMinit])
    ⟨le_refl 0, by norm_num [TMinit, fixedDeltaTime], 0, by norm_num [TMinit]⟩

/-- **C6.** With `fixedDeltaTime = 1/60` and `maxSubSteps = 8`, a single
call to `TimeManager.update` with a huge frame time of 10 seconds (time
scale 1, not paused, any accumulator in the invariant range) returns
exactly 8 steps, not 600: the accumulator is clamped to
`fixedDeltaTime * maxSubSteps` before the drain loop runs. -/
theorem clock_spiral_of_death_cap (acc st : ℝ) (hacc : 0 ≤ acc) :
    (TMupdate ⟨acc, st, 1, false⟩ 10).2 = 8 := by
  have hmax0 : (0:ℝ) ≤ fixedDeltaTime * ((maxSubSteps : ℕ) : ℝ) := by
    norm_num [fixedDeltaTime, maxSubSteps]
  have hclamp : acc + 10 * (1:ℝ) > fixedDeltaTime * ((maxSubSteps : ℕ) : ℝ) := by
    norm_num [fixedDeltaTime, maxSubSteps]
    linarith
  simp only [TMupdate, Bool.false_eq_true, if_false]
  rw [if_pos hclamp, drain_eq _ _ _ hmax0]
  have hq : fixedDeltaTime * ((maxSubSteps : ℕ) : ℝ) / fixedDeltaTime = ((8:ℕ) : ℝ) := by
    norm_num [fixedDeltaTime, maxSubSteps]
  rw [hq, Nat.floor_natCast]

/-- Witness for C6: starting from a zero accumulator. -/
theorem clock_spiral_of_death_cap_witness :
    (TMupdate ⟨0, 0, 1, false⟩ 10).2 = 8 :=
  clock_spiral_of_death_cap 0 0 (le_refl 0)

/-! ## EmissionGenerator: stochastic rounding (`stochasticCount` in `polluters.js`)

`function stochasticCount(rate) { const whole = Math.floor(rate);
const frac = rate - whole; return whole + (Math.random() < frac ? 1 : 0); }`
The uniform sample drawn by `Math.random()` is passed explicitly. -/

/-- `stochasticCount(rate)` with the `Math.random()` sample `r` made an
explicit argument. -/
def stochasticCount (rate r : ℝ) : ℤ :=
  let whole := ⌊rate⌋
  let frac := rate - (whole : ℝ)
  whole + (if r < frac then 1 else 0)

theorem indicator_lt_eq (c : ℝ) :
    (fun r : ℝ => if r < c then (1:ℝ) else 0) =
      Set.indicator (Set.Iio c) (fun _ => (1:ℝ)) := by
  funext r
  simp [Set.indicator_apply]

theorem intervalIntegrable_indicator_lt (c : ℝ) :
    IntervalIntegrable (fun r : ℝ => if r < c then (1:ℝ) else 0)
      MeasureTheory.volume 0 1 := by
  rw [indicator_lt_eq, intervalIntegrable_iff]
  refine MeasureTheory.Integrable.indicator ?_ measurableSet_Iio
  refine MeasureTheory.integrableOn_const.mpr (Or.inr ?_)
  rw [Set.uIoc_of_le (by norm_num : (0:ℝ) ≤ 1), Real.volume_Ioc]
  exact ENNReal.ofReal_lt_top

theorem integral_indicator_lt (c : ℝ) (h0 : 0 ≤ c) (h1 : c ≤ 1) :
    (∫ r in (0:ℝ)..1, (if r < c then (1:ℝ) else 0)) = c := by
  have hfun := indicator_lt_eq c
  rw [show (fun r : ℝ => if r < c then (1:ℝ) else 0) =
      Set.indicator (Set.Iio c) (fun _ => (1:ℝ)) from hfun]
  rw [intervalIntegral.integral_of_le (by norm_num : (0:ℝ) ≤ 1)]
  rw [MeasureTheory.setIntegral_indicator measurableSet_Iio]
  have hset : Set.Ioc (0:ℝ) 1 ∩ Set.Iio c = Set.Ioo 0 c := by
    ext x
    constructor
    · rintro ⟨⟨hx0, hx1⟩, hxc⟩
      exact ⟨hx0, hxc⟩
    · rintro ⟨hx0, hxc⟩
      exact ⟨⟨hx0, le_trans (le_of_lt hxc) h1⟩, hxc⟩
  rw [hset, MeasureTheory.setIntegral_const]
  rw [Real.volume_Ioo]
  simp [ENNReal.toReal_ofReal h0]

/-- **C7.** For every nonnegative expected value `e`, the stochastic
rounding of the emission generator returns `⌊e⌋ + 1` exactly when the
uniform sample `r` satisfies `r < frac(e)` and `⌊e⌋` otherwise; taking `r`
uniform on `[0,1)`, the expected value of the returned count is exactly
`e`, even when `e < 1`. -/
theorem stochastic_rounding_unbiased :
    (∀ (e r : ℝ), 0 ≤ e →
        stochasticCount e r = if r < Int.fract e then ⌊e⌋ + 1 else ⌊e⌋) ∧
      ∀ e : ℝ, 0 ≤ e →
        (∫ r in (0:ℝ)..1, ((stochasticCount e r : ℤ) : ℝ)) = e := by
  have hcast : ∀ (e r : ℝ),
      ((stochasticCount e r : ℤ) : ℝ) =
        (⌊e⌋ : ℝ) + (if r < Int.fract e then (1:ℝ) else 0) := by
    intro e r
    simp only [stochasticCount, Int.fract]
    push_cast
    split_ifs <;> ring
  constructor
  · intro e r _
    simp only [stochasticCount, Int.fract]
    split_ifs <;> ring
  · intro e _
    have hint : (∫ r in (0:ℝ)..1, ((stochasticCount e r : ℤ) : ℝ)) =
        ∫ r in (0:ℝ)..1,
          ((⌊e⌋ : ℝ) + (if r < Int.fract e then (1:ℝ) else 0)) := by
      apply intervalIntegral.integral_congr
      intro r _
      exact hcast e r
    rw [hint,
      intervalIntegral.integral_add intervalIntegrable_const
        (intervalIntegrable_indicator_lt (Int.fract e)),
      intervalIntegral.integral_const,
      integral_indicator_lt (Int.fract e) (Int.fract_nonneg e)
        (le_of_lt (Int.fract_lt_one e))]
    unfold Int.fract
    simp

/-- Witness for C7 at `e = 0.3`: the count is 0 or 1 according to the
sample, and the mean count is exactly 0.3. -/
theorem stochastic_rounding_unbiased_witness :
    stochasticCount 0.3 0.5 = (if (0.5:ℝ) < Int.fract 0.3 then ⌊(0.3:ℝ)⌋ + 1 else ⌊(0.3:ℝ)⌋) ∧
      (∫ r in (0:ℝ)..1, ((stochasticCount 0.3 r : ℤ) : ℝ)) = 0.3 :=
  ⟨stochastic_rounding_unbiased.1 0.3 0.5 (by norm_num),
   stochastic_rounding_unbiased.2 0.3 (by norm_num)⟩

/-! ## ParticlePool with global capacity eviction (`addParticle` in `orchestrator.js`)

`particles` is an object with one array per pollutant type, in key insertion
order `PM25, VOC, OZONE`.  `addParticle` computes the total across all
types; if it is at or above `PARTICLE_CONFIG.maxParticles` it finds the
type with the most particles (starting from the receiving type, scanning
the pools in key order, moving only on a strictly larger count) and
`shift()`s its first — oldest — element, then pushes the new particle onto
the receiving array. -/

/-- The pollutant species of `POLLUTANT_TYPES`. -/
inductive PollutantId where
  | PM25
  | VOC
  | OZONE
  deriving DecidableEq

/-- A particle as created by `addParticle`: position, age and mass. -/
structure Particle where
  x : ℝ
  y : ℝ
  z : ℝ
  age : ℝ
  mass : ℝ

/-- `PARTICLE_CONFIG.maxParticles`. -/
def maxParticles : ℕ := 12000

/-- The per-species particle arrays (`particles` object). -/
def Pools : Type := PollutantId → List Particle

/-- Key order of the `particles` object literal. -/
def pollutantKeys : List PollutantId := [.PM25, .VOC, .OZONE]

/-- `Object.values(particles).reduce((sum, arr) => sum + arr.length, 0)`. -/
def totalParticles (ps : Pools) : ℕ :=
  (pollutantKeys.map fun k => (ps k).length).sum

/-- The scan for the pool with the most particles: starts from the
receiving type and its count, walks `Object.entries(particles)` in key
order, and moves only on a strictly larger count. -/
def evictTarget (ps : Pools) (id : PollutantId) : PollutantId :=
  pollutantKeys.foldl
    (fun best k => if (ps k).length > (ps best).length then k else best) id

/-- `particles[maxType].shift()`: drop the front (oldest) particle of one pool. -/
def evictOldest (ps : Pools) (k : PollutantId) : Pools :=
  fun j => if j = k then (ps j).tail else ps j

/-- `particleArray.push({...})`: append the new particle to the receiving pool. -/
def pushNew (ps : Pools) (id : PollutantId) (p : Particle) : Pools :=
  fun j => if j = id then ps j ++ [p] else ps j

/-- `addParticle(pollutantId, x, y, z)` from `orchestrator.js`. -/
def addParticle (ps : Pools) (id : PollutantId) (p : Particle) : Pools :=
  pushNew
    (if maxParticles ≤ totalParticles ps then evictOldest ps (evictTarget ps id) else ps)
    id p

/-- All pools start empty. -/
def emptyPools : Pools := fun _ => []

/-- Repeated insertion of a sequence of emission events. -/
def emitRun (evs : List (PollutantId × Particle)) : Pools :=
  evs.foldl (fun ps e => addParticle ps e.1 e.2) emptyPools

theorem totalParticles_eq (ps : Pools) :
    totalParticles ps =
      (ps .PM25).length + (ps .VOC).length + (ps .OZONE).length := by
  simp [totalParticles, pollutantKeys]
  omega

theorem evictTarget_spec (ps : Pools) (id : PollutantId) (k : PollutantId) :
    (ps k).length ≤ (ps (evictTarget ps id)).length := by
  cases id <;> cases k <;>
    simp only [evictTarget, pollutantKeys, List.foldl_cons, List.foldl_nil] <;>
    split_ifs <;> omega

theorem totalParticles_pushNew (ps : Pools) (id : PollutantId) (p : Particle) :
    totalParticles (pushNew ps id p) = totalParticles ps + 1 := by
  cases id <;>
    simp [totalParticles_eq, pushNew] <;> omega

theorem totalParticles_evictOldest (ps : Pools) (k : PollutantId)
    (h : 0 < (ps k).length) :
    totalParticles (evictOldest ps k) = totalParticles ps - 1 := by
  cases k <;>
    simp [totalParticles_eq, evictOldest] <;> omega

theorem evictTarget_pos (ps : Pools) (id : PollutantId)
    (h : 0 < totalParticles ps) : 0 < (ps (evictTarget ps id)).length := by
  have h1 := evictTarget_spec ps id .PM25
  have h2 := evictTarget_spec ps id .VOC
  have h3 := evictTarget_spec ps id .OZONE
  rw [totalParticles_eq] at h
  omega

theorem addParticle_total (ps : Pools) (id : PollutantId) (p : Particle) :
    totalParticles (addParticle ps id p) =
      if maxParticles ≤ totalParticles ps then totalParticles ps
      else totalParticles ps + 1 := by
  by_cases hc : maxParticles ≤ totalParticles ps
  · have htot : 0 < totalParticles ps :=
      lt_of_lt_of_le (by norm_num [maxParticles]) hc
    have hpos := evictTarget_pos ps id htot
    rw [if_pos hc]
    rw [addParticle, if_pos hc, totalParticles_pushNew,
      totalParticles_evictOldest ps _ hpos]
    omega
  · rw [if_neg hc, addParticle, if_neg hc, totalParticles_pushNew]

theorem emitRun_total (evs : List (PollutantId × Particle)) :
    ∀ ps : Pools, totalParticles ps ≤ maxParticles →
      totalParticles (evs.foldl (fun ps e => addParticle ps e.1 e.2) ps) =
        min (totalParticles ps + evs.length) maxParticles := by
  induction evs with
  | nil =>
      intro ps h
      simp
      omega
  | cons e evs ih =>
      intro ps h
      rw [List.foldl_cons]
      have hstep := addParticle_total ps e.1 e.2
      by_cases hc : maxParticles ≤ totalParticles ps
      · rw [if_pos hc] at hstep
        rw [ih _ (by omega)]
        rw [hstep]
        simp
        omega
      · rw [if_neg hc] at hstep
        rw [ih _ (by omega)]
        rw [hstep]
        simp
        omega

/-- **C4.** The global particle cap: insertion preserves
`totalParticles ≤ maxParticles`; the eviction target is a pool of maximal
size; inserting at the cap evicts the single front-of-array (oldest)
particle of that pool and leaves the total exactly at the cap; and after
inserting at least `maxParticles` particles starting from empty pools the
total across all species equals `maxParticles` exactly. -/
theorem particle_capacity_bound :
    (∀ (ps : Pools) (id : PollutantId) (p : Particle),
        totalParticles ps ≤ maxParticles →
          totalParticles (addParticle ps id p) ≤ maxParticles) ∧
      (∀ (ps : Pools) (id k : PollutantId),
        (ps k).length ≤ (ps (evictTarget ps id)).length) ∧
      (∀ (ps : Pools) (id : PollutantId) (p : Particle),
        totalParticles ps = maxParticles →
          totalParticles (addParticle ps id p) = maxParticles ∧
            addParticle ps id p =
              pushNew (evictOldest ps (evictTarget ps id)) id p) ∧
      ∀ evs : List (PollutantId × Particle),
        maxParticles ≤ evs.length → totalParticles (emitRun evs) = maxParticles := by
  refine ⟨?_, ?_, ?_, ?_⟩
  · intro ps id p h
    rw [addParticle_total]
    split_ifs <;> omega
  · intro ps id k
    exact evictTarget_spec ps id k
  · intro ps id p h
    constructor
    · rw [addParticle_total, if_pos (le_of_eq h.symm), h]
    · rw [addParticle, if_pos (le_of_eq h.symm)]
  · intro evs h
    have h0 : totalParticles emptyPools = 0 := by
      simp [totalParticles_eq, emptyPools]
    rw [emitRun, emitRun_total evs emptyPools (by rw [h0]; omega), h0]
    omega

/-- Witness for C4: inserting into empty pools, and saturating the cap
with 12000 insertions of a concrete particle. -/
theorem particle_capacity_bound_witness :
    totalParticles (addParticle emptyPools .PM25 ⟨0, 0, 0, 0, 1⟩) ≤ maxParticles ∧
      totalParticles
          (emitRun (List.replicate 12000 (PollutantId.PM25, ⟨0, 0, 0, 0, 1⟩))) =
        maxParticles :=
  ⟨particle_capacity_bound.1 emptyPools .PM25 ⟨0, 0, 0, 0, 1⟩
      (by simp [totalParticles_eq, emptyPools, maxParticles]),
   particle_capacity_bound.2.2.2 (List.replicate 12000 (PollutantId.PM25, ⟨0, 0, 0, 0, 1⟩))
      (by rw [List.length_replicate]; norm_num [maxParticles])⟩

/-! ## SpatialBinner (`binParticlesToGrid` in `orchestrator.js`)

The per-species grid map is cleared and rebuilt from scratch each tick.
The JavaScript `Map` keyed by the string `"cellX,cellY,cellZ"` is embedded
as an association list keyed by the integer triple (the string key is in
bijection with the triple); `Map.set` on an existing key overwrites in
place, on a fresh key appends. -/

/-- `GRID_CONFIG.cellSizeX`. -/
def cellSizeX : ℝ := 2.5
/-- `GRID_CONFIG.cellSizeY`. -/
def cellSizeY : ℝ := 3.0
/-- `GRID_CONFIG.cellSizeZ`. -/
def cellSizeZ : ℝ := 2.5
/-- `GRID_CONFIG.minX`. -/
def gridMinX : ℝ := -80
/-- `GRID_CONFIG.maxX`. -/
def gridMaxX : ℝ := 80
/-- `GRID_CONFIG.minY`. -/
def gridMinY : ℝ := 0
/-- `GRID_CONFIG.maxY`. -/
def gridMaxY : ℝ := 35
/-- `GRID_CONFIG.minZ`. -/
def gridMinZ : ℝ := -72
/-- `GRID_CONFIG.maxZ`. -/
def gridMaxZ : ℝ := 72

/-- `worldToCell(x, y, z)`: integer cell indices via `Math.floor`. -/
def worldToCell (x y z : ℝ) : ℤ × ℤ × ℤ :=
  (⌊(x - gridMinX) / cellSizeX⌋, ⌊(y - gridMinY) / cellSizeY⌋, ⌊(z - gridMinZ) / cellSizeZ⌋)

/-- A grid cell record as initialized and accumulated by `binParticlesToGrid`. -/
structure GridCell where
  cellX : ℤ
  cellY : ℤ
  cellZ : ℤ
  count : ℕ
  totalAge : ℝ
  totalMass : ℝ

/-- The per-species cell map (`gridCells[pollutantId]`). -/
def CellMap : Type := List ((ℤ × ℤ × ℤ) × GridCell)

/-- `cellMap.get(key)` (with `has` folded in): first entry with the key. -/
def mapGet (m : CellMap) (k : ℤ × ℤ × ℤ) : Option GridCell :=
  match m with
  | [] => none
  | (k', c) :: rest => if k' = k then some c else mapGet rest k

/-- `cellMap.set(key, cell)`: overwrite in place, or append a new entry. -/
def mapSet (m : CellMap) (k : ℤ × ℤ × ℤ) (c : GridCell) : CellMap :=
  match m with
  | [] => [(k, c)]
  | (k', c') :: rest => if k' = k then (k, c) :: rest else (k', c') :: mapSet rest k c

/-- The zero-initialized cell inserted when a key is first seen. -/
def newCell (k : ℤ × ℤ × ℤ) : GridCell :=
  ⟨k.1, k.2.1, k.2.2, 0, 0, 0⟩

/-- `cell.count++; cell.totalAge += p.age; cell.totalMass += p.mass`. -/
def bumpCell (c : GridCell) (p : Particle) : GridCell :=
  { c with count := c.count + 1, totalAge := c.totalAge + p.age,
           totalMass := c.totalMass + p.mass }

/-- The per-particle body of `binParticlesToGrid`. -/
def binOne (m : CellMap) (p : Particle) : CellMap :=
  mapSet m (worldToCell p.x p.y p.z)
    (bumpCell ((mapGet m (worldToCell p.x p.y p.z)).getD
      (newCell (worldToCell p.x p.y p.z))) p)

/-- `binParticlesToGrid` for one species: the previous grid contents are
discarded (`map.clear()`) and every live particle is binned. -/
def binParticlesToGrid (ps : List Particle) : CellMap :=
  ps.foldl binOne []

/-- Sum of `cell.count` over the grid snapshot. -/
def totalCellCount (m : CellMap) : ℕ :=
  (List.map (fun e => e.2.count) m).sum

/-- Position within `GRID_CONFIG` bounds. -/
def inGridBounds (p : Particle) : Prop :=
  gridMinX ≤ p.x ∧ p.x ≤ gridMaxX ∧ gridMinY ≤ p.y ∧ p.y ≤ gridMaxY ∧
    gridMinZ ≤ p.z ∧ p.z ≤ gridMaxZ

theorem totalCellCount_binOne (m : CellMap) (p : Particle) :
    totalCellCount (binOne m p) = totalCellCount m + 1 := by
  induction m with
  | nil =>
      simp [binOne, mapGet, mapSet, totalCellCount, bumpCell, newCell]
  | cons e rest ih =>
      rcases e with ⟨k', c'⟩
      by_cases hk : k' = worldToCell p.x p.y p.z
      · simp [binOne, mapGet, mapSet, hk, totalCellCount, bumpCell]
        omega
      · have hbin : binOne ((k', c') :: rest) p = (k', c') :: binOne rest p := by
          simp [binOne, mapGet, mapSet, hk]
        rw [hbin]
        have hcons : ∀ (q : (ℤ × ℤ × ℤ) × GridCell) (l : CellMap),
            totalCellCount (q :: l) = q.2.count + totalCellCount l := by
          intro q l
          simp [totalCellCount]
        rw [hcons, hcons, ih]
        omega

theorem totalCellCount_foldl (ps : List Particle) :
    ∀ m : CellMap, totalCellCount (ps.foldl binOne m) = totalCellCount m + ps.length := by
  induction ps with
  | nil => intro m; simp
  | cons p ps ih =>
      intro m
      rw [List.foldl_cons, ih, totalCellCount_binOne, List.length_cons]
      omega

/-- **C8.** Binning conservation: for any list of live particles of a
species whose positions lie within the grid bounds, after the spatial
binner rebuilds the grid from scratch the sum of `cell.count` over all
grid cells equals the number of live particles of that species. -/
theorem binning_conservation (ps : List Particle)
    (_hin : ∀ p ∈ ps, inGridBounds p) :
    totalCellCount (binParticlesToGrid ps) = ps.length := by
  rw [binParticlesToGrid, totalCellCount_foldl]
  simp [totalCellCount]

/-- Witness for C8: two concrete in-bounds particles yield total count 2. -/
theorem binning_conservation_witness :
    totalCellCount (binParticlesToGrid [⟨0, 5, 0, 0, 1⟩, ⟨1, 2, 3, 0.5, 1⟩]) = 2 :=
  binning_conservation [⟨0, 5, 0, 0, 1⟩, ⟨1, 2, 3, 0.5, 1⟩]
    (by
      intro p hp
      simp only [List.mem_cons, List.not_mem_nil, or_false] at hp
      rcases hp with rfl | rfl <;>
        refine ⟨?_, ?_, ?_, ?_, ?_, ?_⟩ <;>
          norm_num [gridMinX, gridMaxX, gridMinY, gridMaxY, gridMinZ, gridMaxZ])

/-! ## EmitterRegistry (`registry.js`) and `initPolluters` (`polluters.js`)

`EMITTER_PROFILES` is a plain object read only by keyed lookup
(`EMITTER_PROFILES[profileName]`), embedded as an association list from
profile names to profile records; only the fields that `initPolluters`
reads when processing a point emitter (`height`, `plumeRise`) are carried,
with `Option` capturing fields absent on some profiles (the JS `||`
defaults).  `initPolluters` maps each `POINT_EMITTERS` entry through
`getProfile`; on a missing profile it logs a `console.warn` and produces
`null`, and the trailing `.filter(e => e !== null)` drops those entries. -/

/-- `GEO_BOUNDS.lonMin`. -/
def lonMin : ℝ := -123.135223
/-- `GEO_BOUNDS.lonMax`. -/
def lonMax : ℝ := -121.415863
/-- `GEO_BOUNDS.latMin`. -/
def latMin : ℝ := 37.182476
/-- `GEO_BOUNDS.latMax`. -/
def latMax : ℝ := 38.387867
/-- `MAP_BOUNDS.width` (km east-west). -/
def mapWidth : ℝ := 151
/-- `MAP_BOUNDS.depth` (km north-south). -/
def mapDepth : ℝ := 134

/-- `geoToWorld(lon, lat)` from `registry.js`: east is `+x`, and `z` is
flipped so that north (higher latitude) is `-z`. -/
def geoToWorld (lon lat : ℝ) : ℝ × ℝ :=
  (((lon - lonMin) / (lonMax - lonMin) - 0.5) * mapWidth,
   (0.5 - (lat - latMin) / (latMax - latMin)) * mapDepth)

/-- An emission profile, restricted to the fields `initPolluters` reads. -/
structure EmitterProfile where
  height : Option ℝ
  plumeRise : Option ℝ

/-- `getProfile(profileName)`: keyed lookup in `EMITTER_PROFILES`,
`undefined` (`none`) when the name is unknown. -/
def getProfile (table : List (String × EmitterProfile)) (profileName : String) :
    Option EmitterProfile :=
  match table with
  | [] => none
  | (n, p) :: rest => if n = profileName then some p else getProfile rest profileName

/-- A `POINT_EMITTERS` entry. -/
structure PointEmitter where
  id : String
  profile : String
  scale : ℝ
  lon : ℝ
  lat : ℝ

/-- A processed point emitter as built by `initPolluters`. -/
structure ProcessedPointEmitter where
  id : String
  profile : String
  scale : ℝ
  lon : ℝ
  lat : ℝ
  profileData : EmitterProfile
  worldPosition : ℝ × ℝ × ℝ
  terrainHeight : ℝ

/-- The per-emitter body of `initPolluters` once the profile has resolved:
world coordinates, terrain height, emission height
`terrainHeight + (profile.height || 0.5) + (profile.plumeRise || 0)`. -/
def processPointEmitter (th : ℝ → ℝ → ℝ) (e : PointEmitter)
    (profile : EmitterProfile) : ProcessedPointEmitter :=
  let w := geoToWorld e.lon e.lat
  let terrainHeight := th w.1 w.2
  let emissionHeight := terrainHeight + profile.height.getD 0.5 + profile.plumeRise.getD 0
  ⟨e.id, e.profile, e.scale, e.lon, e.lat, profile,
    (w.1, emissionHeight, w.2), terrainHeight⟩

/-- `initPolluters` on the point emitters: `POINT_EMITTERS.map(...)` where
an unknown profile yields `null`, followed by `.filter(e => e !== null)`. -/
def initPolluters (table : List (String × EmitterProfile))
    (emitters : List PointEmitter) (th : ℝ → ℝ → ℝ) : List ProcessedPointEmitter :=
  emitters.filterMap fun e => (getProfile table e.profile).map (processPointEmitter th e)

/-- A profile table fixture holding one known profile. -/
def sampleProfiles : List (String × EmitterProfile) :=
  [("CITY_LARGE", ⟨some 0.5, none⟩)]

/-- A point emitter whose profile resolves. -/
def sampleGoodEmitter : PointEmitter :=
  ⟨"sf_downtown", "CITY_LARGE", 1, -122.4194, 37.7749⟩

/-- A point emitter referencing a profile name absent from the table. -/
def sampleBadEmitter : PointEmitter :=
  ⟨"ghost_plant", "MEGA_REFINERY", 1, -122.0, 37.5⟩

/-- **C9 (counterexample).** An emitter whose profile reference does not
resolve is *not* rejected at registry construction: with a registry
holding one known profile and two emitters — one sound, one referencing an
unknown profile — construction succeeds and returns exactly the sound
emitter, silently skipping the other. -/
theorem emitter_unknown_profile_counterexample :
    getProfile sampleProfiles sampleBadEmitter.profile = none ∧
      (initPolluters sampleProfiles [sampleGoodEmitter, sampleBadEmitter]
          (fun _ _ => 0)).map (fun e => e.id) = ["sf_downtown"] := by
  constructor
  · simp [getProfile, sampleProfiles, sampleBadEmitter]
  · simp [initPolluters, getProfile, sampleProfiles, sampleGoodEmitter,
      sampleBadEmitter, processPointEmitter]

/-- **C9 (amended).** At load time, emitters whose profile reference does
not name a known emission profile are dropped (after a warning-level
diagnostic naming the emitter) while the remaining emitters load: the
processed registry consists, in order, of exactly the emitters whose
profile resolves. -/
theorem emitter_unknown_profile_skipped (table : List (String × EmitterProfile))
    (emitters : List PointEmitter) (th : ℝ → ℝ → ℝ) :
    (initPolluters table emitters th).map (fun e => e.id) =
      (emitters.filter fun e => (getProfile table e.profile).isSome).map
        (fun e => e.id) := by
  induction emitters with
  | nil => simp [initPolluters]
  | cons e rest ih =>
      rw [initPolluters] at ih ⊢
      rw [List.filterMap_cons, List.filter_cons]
      cases h : getProfile table e.profile with
      | none => simp [h, ih]
      | some pr => simp [h, ih, processPointEmitter]

/-! ## VelocityField (`getVelocityAt` in `traffic.js`)

Real-number model of `getVelocityAt(x, y, z, t, settings)`.  The three
`(Math.random() - 0.5) * 2` turbulence samples are passed explicitly, and
the initialized `mapData.getTerrainHeight` is a function parameter.  Each
`if (cond) { v ζ= e }` mutation becomes a rebinding guarded by the same
condition.  Division follows the Lean convention `x / 0 = 0` here; the
finiteness question is settled on the `Option ℝ` carrier model below. -/

/-- The wind settings fields of the global settings object read by
`getVelocityAt`. -/
structure WindSettings where
  windDirection : ℝ
  windSpeed : ℝ
  turbulence : ℝ

/-- Step 1 of `getVelocityAt`: `windDir = windDirection * π/180;
windX = sin(windDir) * windSpeed; windZ = cos(windDir) * windSpeed`. -/
def windStep1 (windDirection windSpeed : ℝ) : ℝ × ℝ :=
  (Real.sin (windDirection * (π / 180)) * windSpeed,
   Real.cos (windDirection * (π / 180)) * windSpeed)

/-- `dayPhase = (t % 120) / 120`. -/
def dayPhase (t : ℝ) : ℝ := jsRem t 120 / 120

/-- `seaBreezeFactor = sin(dayPhase * π * 2) * 0.3`. -/
def seaBreezeFactor (t : ℝ) : ℝ := Real.sin (dayPhase t * π * 2) * 0.3

/-- Step 3 of `getVelocityAt`: the east-west sea-breeze term added to
`_velocity.x`, namely `seaBreezeFactor * windSpeed * 0.3`. -/
def seaBreezeContrib (t windSpeed : ℝ) : ℝ := seaBreezeFactor t * windSpeed * 0.3

/-- Step 2 of `getVelocityAt`: `heightFactor = log(max(1, y+1)) / log(10)`. -/
def heightFactor (y : ℝ) : ℝ := Real.log (max 1 (y + 1)) / Real.log 10

/-- `getVelocityAt(x, y, z, t, settings)` over `ℝ`, with terrain function
`th` and turbulence samples `noise`. -/
def getVelocityAt (x y z t : ℝ) (s : WindSettings) (th : ℝ → ℝ → ℝ)
    (noise : ℝ × ℝ × ℝ) : ℝ × ℝ × ℝ :=
  let windSpeed := s.windSpeed
  let vx := (windStep1 s.windDirection windSpeed).1
  let vz := (windStep1 s.windDirection windSpeed).2
  let vy := (0:ℝ)
  let vx := vx * (0.5 + heightFactor y * 0.7)
  let vz := vz * (0.5 + heightFactor y * 0.7)
  let vx := vx + seaBreezeContrib t windSpeed
  let terrainHeight := th x z
  let vz := if y < terrainHeight + 5 ∧ 10 < x ∧ x < 35 then
      vz + (Real.sign z * 0.5 * (1 - y / (terrainHeight + 5))) * windSpeed * 0.3
    else vz
  let vx := if y < terrainHeight + 5 ∧ x < -10 ∧ 0 < z ∧ z < 20 then vx * 1.3 else vx
  let vy := if y < terrainHeight + 10 then
      vy + (terrainHeight / 5) * 0.5 * (1 - y / (terrainHeight + 10))
    else vy
  let distFromBayCenter := Real.sqrt (x * x + z * z)
  let convergeFactor := (1 - distFromBayCenter / 30) * 0.1 * Real.sin (dayPhase t * π)
  let vx := if distFromBayCenter < 30 then
      vx - (x / distFromBayCenter) * convergeFactor * windSpeed else vx
  let vz := if distFromBayCenter < 30 then
      vz - (z / distFromBayCenter) * convergeFactor * windSpeed else vz
  let vy := if distFromBayCenter < 30 then vy + convergeFactor * 0.5 else vy
  let vx := if 0 < s.turbulence then vx + noise.1 * (s.turbulence * windSpeed * 0.5) else vx
  let vy := if 0 < s.turbulence then
      vy + noise.2.1 * (s.turbulence * windSpeed * 0.5) * 0.3 else vy
  let vz := if 0 < s.turbulence then vz + noise.2.2 * (s.turbulence * windSpeed * 0.5) else vz
  let vy := if y < 5 then vy + 0.5 * (1 - y / 5) else vy
  (vx, vy, vz)

/-- The world-frame horizontal unit vector pointing *toward* compass
bearing `d` (degrees): east is `+x` and north is `-z` in this repository
(`registry.js` documents the frame, and `geoToWorld` increases `x` with
longitude and decreases `z` with latitude), so bearing `d` points to
`(sin d°, -cos d°)`. -/
def compassToWorld (d : ℝ) : ℝ × ℝ :=
  (Real.sin (d * (π / 180)), -Real.cos (d * (π / 180)))

/-- `geoToWorld` is increasing in longitude: east is `+x`. -/
theorem geoToWorld_east_positive (a b lat : ℝ) (h : a < b) :
    (geoToWorld a lat).1 < (geoToWorld b lat).1 := by
  simp only [geoToWorld]
  have hD : (0:ℝ) < lonMax - lonMin := by norm_num [lonMin, lonMax]
  have hW : (0:ℝ) < mapWidth := by norm_num [mapWidth]
  have hdiv : (a - lonMin) / (lonMax - lonMin) < (b - lonMin) / (lonMax - lonMin) :=
    div_lt_div_of_pos_right (by linarith) hD
  nlinarith

/-- `geoToWorld` is decreasing in latitude: north is `-z`. -/
theorem geoToWorld_north_negative (lon a b : ℝ) (h : a < b) :
    (geoToWorld lon b).2 < (geoToWorld lon a).2 := by
  simp only [geoToWorld]
  have hD : (0:ℝ) < latMax - latMin := by norm_num [latMin, latMax]
  have hW : (0:ℝ) < mapDepth := by norm_num [mapDepth]
  have hdiv : (a - latMin) / (latMax - latMin) < (b - latMin) / (latMax - latMin) :=
    div_lt_div_of_pos_right (by linarith) hD
  nlinarith

/-- **C2 (counterexample).** The prevailing-wind term does *not* point
opposite to the compass direction for every direction: for wind from the
east (`d = 90`, speed 1) the vector added by step 1 is `(1, 0)` — due
east in world frame — whereas the vector opposite to compass bearing 90°
is `(-1, 0)`. -/
theorem wind_direction_convention_counterexample :
    windStep1 90 1 ≠
      (1 * (-(compassToWorld 90).1), 1 * (-(compassToWorld 90).2)) := by
  intro h
  have harg : (90:ℝ) * (π / 180) = π / 2 := by ring
  have h1 := congrArg Prod.fst h
  simp only [windStep1, compassToWorld, harg, Real.sin_pi_div_two] at h1
  norm_num at h1

/-- **C2 (amended).** The vector added by step 1 has magnitude
`windSpeed` for `windSpeed ≥ 0`, but it points toward compass bearing
`180° - d` (the meteorological mirror about the north-south axis), not
toward `180° + d`; only for `d ≡ 0, 180 (mod 360)` does it point exactly
opposite to the compass direction `d`. -/
theorem wind_direction_convention_amended (d s : ℝ) (hs : 0 ≤ s) :
    Real.sqrt ((windStep1 d s).1 ^ 2 + (windStep1 d s).2 ^ 2) = s ∧
      windStep1 d s =
        (s * (compassToWorld (180 - d)).1, s * (compassToWorld (180 - d)).2) := by
  constructor
  · simp only [windStep1]
    have hsq : (Real.sin (d * (π / 180)) * s) ^ 2 + (Real.cos (d * (π / 180)) * s) ^ 2
        = s ^ 2 := by
      nlinarith [Real.sin_sq_add_cos_sq (d * (π / 180))]
    rw [hsq]
    exact Real.sqrt_sq hs
  · have harg : (180 - d) * (π / 180) = π - d * (π / 180) := by ring
    simp only [windStep1, compassToWorld, harg, Real.sin_pi_sub, Real.cos_pi_sub]
    exact Prod.ext (by ring) (by ring)

/-- Witness for the amended C2 at `d = 45`, `s = 2`. -/
theorem wind_direction_convention_amended_witness :
    Real.sqrt ((windStep1 45 2).1 ^ 2 + (windStep1 45 2).2 ^ 2) = 2 ∧
      windStep1 45 2 =
        (2 * (compassToWorld (180 - 45)).1, 2 * (compassToWorld (180 - 45)).2) :=
  wind_direction_convention_amended 45 2 (by norm_num)

/-- The sea-breeze term as worded by the spec:
`sin(2π · (t mod 120)/120) * 0.3 * wind_speed`.  Stated only for
comparison against the term computed by the code. -/
def seaBreezeSpec (t ws : ℝ) : ℝ :=
  Real.sin (2 * π * jsRem t 120 / 120) * 0.3 * ws

theorem jsRem_thirty : jsRem 30 120 = 30 := by
  have htr : jsTrunc ((30:ℝ) / 120) = 0 := by
    rw [jsTrunc_nonneg _ (by norm_num)]
    rw [Int.floor_eq_zero_iff]
    constructor <;> norm_num
  simp [jsRem, htr]

/-- **C3 (counterexample).** At `t = 30`, `windSpeed = 1` the
sea-breeze term computed by the code is `0.09`, while the claimed formula
`sin(2π(t mod 120)/120) * 0.3 * windSpeed` gives `0.3`: the two differ. -/
theorem sea_breeze_amplitude_counterexample :
    seaBreezeContrib 30 1 = 0.09 ∧ seaBreezeSpec 30 1 = 0.3 ∧
      seaBreezeContrib 30 1 ≠ seaBreezeSpec 30 1 := by
  have harg : dayPhase 30 * π * 2 = π / 2 := by
    rw [dayPhase, jsRem_thirty]
    ring
  have harg2 : 2 * π * jsRem 30 120 / 120 = π / 2 := by
    rw [jsRem_thirty]
    ring
  refine ⟨?_, ?_, ?_⟩
  · rw [seaBreezeContrib, seaBreezeFactor, harg, Real.sin_pi_div_two]
    norm_num
  · rw [seaBreezeSpec, harg2, Real.sin_pi_div_two]
    norm_num
  · rw [seaBreezeContrib, seaBreezeFactor, harg, Real.sin_pi_div_two,
      seaBreezeSpec, harg2, Real.sin_pi_div_two]
    norm_num

/-- **C3 (amended).** For every time `t` and wind settings, the diurnal
sea-breeze contribution of the velocity field is an east-west (x-axis)
term equal to `sin(2π · (t mod 120)/120) * 0.3 * 0.3 * wind_speed`: the
`0.3` sine amplitude is multiplied by a further `0.3` when the term is
added, so the effective amplitude is `0.09 * wind_speed` on a 120-second
cycle. -/
theorem sea_breeze_amplitude (t ws : ℝ) :
    seaBreezeContrib t ws = Real.sin (2 * π * jsRem t 120 / 120) * (0.3 * 0.3) * ws := by
  rw [seaBreezeContrib, seaBreezeFactor, dayPhase]
  have harg : jsRem t 120 / 120 * π * 2 = 2 * π * jsRem t 120 / 120 := by ring
  rw [harg]
  ring

/-! ## Physics integrator (`updateParticlePhysics` in `orchestrator.js`)

One-particle body of the per-tick loop.  The dispersion jitter samples
`(Math.random() - 0.5)` are passed explicitly (`djit`), as are the
turbulence samples consumed inside `getVelocityAt` (`nv`).  `halfWidth`
and `halfDepth` are `mapData.bounds.width/2 + 15` and
`mapData.bounds.depth/2 + 15`.  The result is `none` when the particle is
removed (deposition, expiry, or out of bounds). -/

/-- `PARTICLE_CONFIG.lifetime`. -/
def lifetime : ℝ := 45

/-- The species physics constants read by the integrator. -/
structure PollutantConfig where
  settlingRate : ℝ
  disperseRate : ℝ

/-- `getVelocityAt` with the diurnal terms removed: no sea-breeze
addition (step 3) and no bay-convergence block (step 5).  Used to state
that advection at `t = 0` never sees the diurnal terms. -/
def getVelocityNoDiurnal (x y z : ℝ) (s : WindSettings) (th : ℝ → ℝ → ℝ)
    (noise : ℝ × ℝ × ℝ) : ℝ × ℝ × ℝ :=
  let windSpeed := s.windSpeed
  let vx := (windStep1 s.windDirection windSpeed).1
  let vz := (windStep1 s.windDirection windSpeed).2
  let vy := (0:ℝ)
  let vx := vx * (0.5 + heightFactor y * 0.7)
  let vz := vz * (0.5 + heightFactor y * 0.7)
  let terrainHeight := th x z
  let vz := if y < terrainHeight + 5 ∧ 10 < x ∧ x < 35 then
      vz + (Real.sign z * 0.5 * (1 - y / (terrainHeight + 5))) * windSpeed * 0.3
    else vz
  let vx := if y < terrainHeight + 5 ∧ x < -10 ∧ 0 < z ∧ z < 20 then vx * 1.3 else vx
  let vy := if y < terrainHeight + 10 then
      vy + (terrainHeight / 5) * 0.5 * (1 - y / (terrainHeight + 10))
    else vy
  let vx := if 0 < s.turbulence then vx + noise.1 * (s.turbulence * windSpeed * 0.5) else vx
  let vy := if 0 < s.turbulence then
      vy + noise.2.1 * (s.turbulence * windSpeed * 0.5) * 0.3 else vy
  let vz := if 0 < s.turbulence then vz + noise.2.2 * (s.turbulence * windSpeed * 0.5) else vz
  let vy := if y < 5 then vy + 0.5 * (1 - y / 5) else vy
  (vx, vy, vz)

/-- The per-particle body of `updateParticlePhysics`, exactly as in the
source: the velocity field is invoked at time `0`. -/
def updateParticlePhysics1 (config : PollutantConfig) (dt : ℝ) (s : WindSettings)
    (th : ℝ → ℝ → ℝ) (nv djit : ℝ × ℝ × ℝ) (halfWidth halfDepth : ℝ)
    (p : Particle) : Option Particle :=
  let v := getVelocityAt p.x p.y p.z 0 s th nv
  let px := p.x + v.1 * dt
  let py := p.y + v.2.1 * dt
  let pz := p.z + v.2.2 * dt
  let disperseAmount := config.disperseRate * s.turbulence * dt
  let px := px + djit.1 * disperseAmount * 2
  let py := py + djit.2.1 * disperseAmount
  let pz := pz + djit.2.2 * disperseAmount * 2
  let py := if 0 < config.settlingRate then py - config.settlingRate * dt else py
  let terrainHeight := th px pz
  if py ≤ terrainHeight + 0.15 ∧ 0 < config.settlingRate then none
  else
    let py := if py ≤ terrainHeight + 0.15 then terrainHeight + 0.3 else py
    let age := p.age + dt
    if lifetime < age then none
    else if halfWidth < |px| ∨ halfDepth < |pz| ∨ 45 < py ∨ py < -2 then none
    else some ⟨px, py, pz, age, p.mass⟩

/-- The same integrator body abstracted over the velocity field it
queries. -/
def updateParticleGen (vel : ℝ → ℝ → ℝ → ℝ × ℝ × ℝ) (config : PollutantConfig)
    (dt : ℝ) (s : WindSettings) (th : ℝ → ℝ → ℝ) (djit : ℝ × ℝ × ℝ)
    (halfWidth halfDepth : ℝ) (p : Particle) : Option Particle :=
  let v := vel p.x p.y p.z
  let px := p.x + v.1 * dt
  let py := p.y + v.2.1 * dt
  let pz := p.z + v.2.2 * dt
  let disperseAmount := config.disperseRate * s.turbulence * dt
  let px := px + djit.1 * disperseAmount * 2
  let py := py + djit.2.1 * disperseAmount
  let pz := pz + djit.2.2 * disperseAmount * 2
  let py := if 0 < config.settlingRate then py - config.settlingRate * dt else py
  let terrainHeight := th px pz
  if py ≤ terrainHeight + 0.15 ∧ 0 < config.settlingRate then none
  else
    let py := if py ≤ terrainHeight + 0.15 then terrainHeight + 0.3 else py
    let age := p.age + dt
    if lifetime < age then none
    else if halfWidth < |px| ∨ halfDepth < |pz| ∨ 45 < py ∨ py < -2 then none
    else some ⟨px, py, pz, age, p.mass⟩

theorem dayPhase_zero : dayPhase 0 = 0 := by
  simp [dayPhase, jsRem, jsTrunc]

theorem getVelocityAt_time_zero (x y z : ℝ) (s : WindSettings) (th : ℝ → ℝ → ℝ)
    (noise : ℝ × ℝ × ℝ) :
    getVelocityAt x y z 0 s th noise = getVelocityNoDiurnal x y z s th noise := by
  simp only [getVelocityAt, getVelocityNoDiurnal, seaBreezeContrib, seaBreezeFactor,
    dayPhase_zero, zero_mul, Real.sin_zero, mul_zero, sub_zero, add_zero, ite_self]

/-- **C10.** On every fixed tick and for every live particle, the physics
integrator invokes the velocity field with the time argument fixed at `0`
rather than the current simulation time; since `sin 0 = 0`, the diurnal
sea-breeze term and the diurnal modulation of the bay-convergence term
are identically zero during particle advection: the integrator behaves
exactly as if it queried the field with those diurnal terms deleted. -/
theorem physics_uses_time_zero :
    (∀ ws : ℝ, seaBreezeContrib 0 ws = 0) ∧
      Real.sin (dayPhase 0 * π) = 0 ∧
      (∀ (x y z : ℝ) (s : WindSettings) (th : ℝ → ℝ → ℝ) (nv : ℝ × ℝ × ℝ),
        getVelocityAt x y z 0 s th nv = getVelocityNoDiurnal x y z s th nv) ∧
      ∀ (config : PollutantConfig) (dt : ℝ) (s : WindSettings) (th : ℝ → ℝ → ℝ)
        (nv djit : ℝ × ℝ × ℝ) (halfWidth halfDepth : ℝ) (p : Particle),
        updateParticlePhysics1 config dt s th nv djit halfWidth halfDepth p =
          updateParticleGen (fun a b c => getVelocityNoDiurnal a b c s th nv)
            config dt s th djit halfWidth halfDepth p := by
  refine ⟨?_, ?_, ?_, ?_⟩
  · intro ws
    simp [seaBreezeContrib, seaBreezeFactor, dayPhase_zero]
  · simp [dayPhase_zero]
  · intro x y z s th nv
    exact getVelocityAt_time_zero x y z s th nv
  · intro config dt s th nv djit halfWidth halfDepth p
    simp only [updateParticlePhysics1, updateParticleGen, getVelocityAt_time_zero]

/-! ## Finiteness of the velocity field (`Option ℝ` carrier)

`getVelocityAt` re-run over `Option ℝ`: `some r` is a finite double,
`none` a non-finite one (NaN or ±Infinity).  Addition, subtraction and
multiplication of finite doubles are modelled as exact (overflow is not
modelled); division by zero is non-finite (`0/0` is NaN, `x/0` is
±Infinity); every operation with a non-finite operand yields a non-finite
result, which is exact for the `+`, `-`, `*` chains that consume the
division results in this function (NaN propagates through all of them,
and an infinity stays non-finite under them here). -/

/-- Lift a binary real operation to the finite-or-not carrier. -/
def jop2 (f : ℝ → ℝ → ℝ) : Option ℝ → Option ℝ → Option ℝ
  | some a, some b => some (f a b)
  | _, _ => none

/-- JS `+` on doubles (finiteness tracking). -/
def jadd : Option ℝ → Option ℝ → Option ℝ := jop2 (· + ·)

/-- JS binary `-` on doubles (finiteness tracking). -/
def jsub : Option ℝ → Option ℝ → Option ℝ := jop2 (· - ·)

/-- JS `*` on doubles (finiteness tracking). -/
def jmul : Option ℝ → Option ℝ → Option ℝ := jop2 (· * ·)

/-- JS `/` on doubles: division by zero is non-finite. -/
def jdiv : Option ℝ → Option ℝ → Option ℝ
  | some a, some b => if b = 0 then none else some (a / b)
  | _, _ => none

/-- `getVelocityAt(x, y, z, t, settings)` on the finite-or-not carrier.
Same structure as `getVelocityAt`; subexpressions not downstream of a
division stay real and are injected with `some`. -/
def getVelocityAtF (x y z t : ℝ) (s : WindSettings) (th : ℝ → ℝ → ℝ)
    (noise : ℝ × ℝ × ℝ) : Option ℝ × Option ℝ × Option ℝ :=
  let windSpeed := s.windSpeed
  let vx : Option ℝ := some ((windStep1 s.windDirection windSpeed).1)
  let vz : Option ℝ := some ((windStep1 s.windDirection windSpeed).2)
  let vy : Option ℝ := some 0
  let vx := jmul vx (some (0.5 + heightFactor y * 0.7))
  let vz := jmul vz (some (0.5 + heightFactor y * 0.7))
  let vx := jadd vx (some (seaBreezeContrib t windSpeed))
  let terrainHeight := th x z
  let vz := if y < terrainHeight + 5 ∧ 10 < x ∧ x < 35 then
      jadd vz
        (jmul
          (jmul
            (jmul (some (Real.sign z * 0.5))
              (jsub (some 1) (jdiv (some y) (some (terrainHeight + 5)))))
            (some windSpeed))
          (some 0.3))
    else vz
  let vx := if y < terrainHeight + 5 ∧ x < -10 ∧ 0 < z ∧ z < 20 then
      jmul vx (some 1.3)
    else vx
  let vy := if y < terrainHeight + 10 then
      jadd vy
        (jmul (some (terrainHeight / 5 * 0.5))
          (jsub (some 1) (jdiv (some y) (some (terrainHeight + 10)))))
    else vy
  let distFromBayCenter := Real.sqrt (x * x + z * z)
  let convergeFactor := (1 - distFromBayCenter / 30) * 0.1 * Real.sin (dayPhase t * π)
  let vx := if distFromBayCenter < 30 then
      jsub vx
        (jmul (jmul (jdiv (some x) (some distFromBayCenter)) (some convergeFactor))
          (some windSpeed))
    else vx
  let vz := if distFromBayCenter < 30 then
      jsub vz
        (jmul (jmul (jdiv (some z) (some distFromBayCenter)) (some convergeFactor))
          (some windSpeed))
    else vz
  let vy := if distFromBayCenter < 30 then jadd vy (some (convergeFactor * 0.5)) else vy
  let vx := if 0 < s.turbulence then
      jadd vx (some (noise.1 * (s.turbulence * windSpeed * 0.5))) else vx
  let vy := if 0 < s.turbulence then
      jadd vy (some (noise.2.1 * (s.turbulence * windSpeed * 0.5) * 0.3)) else vy
  let vz := if 0 < s.turbulence then
      jadd vz (some (noise.2.2 * (s.turbulence * windSpeed * 0.5))) else vz
  let vy := if y < 5 then jadd vy (some (0.5 * (1 - y / 5))) else vy
  (vx, vy, vz)

theorem jop2_none_right (f : ℝ → ℝ → ℝ) (a : Option ℝ) : jop2 f a none = none := by
  cases a <;> rfl

/-- **C1 (counterexample).** At the basin center `x = 0, z = 0` (here
with `y = 20`, `t = 0`, wind from the north at speed 1, turbulence 0 —
wind settings satisfying the hypotheses of the claim, flat terrain) the
bay-convergence term computes `x / distFromBayCenter = 0 / 0` with no
guarding branch, and the x-component of the velocity is non-finite
(NaN). -/
theorem velocity_field_nan_at_center :
    (0:ℝ) ≤ 1 ∧ (0:ℝ) ≤ 0 ∧ (0:ℝ) ≤ 1 ∧
      (getVelocityAtF 0 20 0 0 ⟨0, 1, 0⟩ (fun _ _ => 0) (0, 0, 0)).1 = none := by
  refine ⟨by norm_num, le_refl 0, by norm_num, ?_⟩
  have hdist : Real.sqrt ((0:ℝ) * 0 + 0 * 0) = 0 := by
    norm_num
  have hdiv : jdiv (some (0:ℝ)) (some (0:ℝ)) = none := by
    simp [jdiv]
  simp only [getVelocityAtF, hdist]
  rw [if_neg (by norm_num), if_pos (by norm_num), if_neg (by norm_num)]
  rw [hdiv]
  simp [jadd, jsub, jmul, jop2]

/-- **C1 (amended).** Away from the exact basin center — for every
position with `(x, z) ≠ (0, 0)` and terrain height avoiding the exact
values `-5` and `-10` at that position — every component of the velocity
returned by `getVelocityAt` is a finite number for all times and wind
settings: all other division-prone spots of the engine (zero-length
route, zero threshold span) are branch-guarded, but the bay-convergence
division is not, so finiteness holds only off the center. -/
theorem velocity_field_finite_off_center (x y z t : ℝ) (s : WindSettings)
    (th : ℝ → ℝ → ℝ) (noise : ℝ × ℝ × ℝ)
    (hc : x ≠ 0 ∨ z ≠ 0) (h5 : th x z + 5 ≠ 0) (h10 : th x z + 10 ≠ 0) :
    ∃ a b c : ℝ, getVelocityAtF x y z t s th noise = (some a, some b, some c) := by
  have hpos : 0 < x * x + z * z := by
    rcases hc with hx | hz
    · have h1 : 0 < x * x := mul_self_pos.mpr hx
      nlinarith [mul_self_nonneg z]
    · have h1 : 0 < z * z := mul_self_pos.mpr hz
      nlinarith [mul_self_nonneg x]
  have hdist : Real.sqrt (x * x + z * z) ≠ 0 :=
    ne_of_gt (Real.sqrt_pos.mpr hpos)
  have hd5 : jdiv (some y) (some (th x z + 5)) = some (y / (th x z + 5)) := by
    simp [jdiv, h5]
  have hd10 : jdiv (some y) (some (th x z + 10)) = some (y / (th x z + 10)) := by
    simp [jdiv, h10]
  have hdx : jdiv (some x) (some (Real.sqrt (x * x + z * z))) =
      some (x / Real.sqrt (x * x + z * z)) := by
    simp [jdiv, hdist]
  have hdz : jdiv (some z) (some (Real.sqrt (x * x + z * z))) =
      some (z / Real.sqrt (x * x + z * z)) := by
    simp [jdiv, hdist]
  simp only [getVelocityAtF, hd5, hd10, hdx, hdz, jadd, jsub, jmul, jop2,
    ← apply_ite (Option.some (α := ℝ))]
  exact ⟨_, _, _, rfl⟩

/-- Witness for the amended C1 at `(x, z) = (1, 0)`, flat terrain. -/
theorem velocity_field_finite_off_center_witness :
    ∃ a b c : ℝ,
      getVelocityAtF 1 20 0 0 ⟨0, 1, 0⟩ (fun _ _ => 0) (0, 0, 0) =
        (some a, some b, some c) :=
  velocity_field_finite_off_center 1 20 0 0 ⟨0, 1, 0⟩ (fun _ _ => 0) (0, 0, 0)
    (Or.inl (by norm_num)) (by norm_num) (by norm_num)
